import Mathlib

/-!
Verification of the meshsync configuration resolver
(`internal/config/crd_config.go`, `PopulateConfigsFromMap`).

The resolver takes a raw data map holding a serialized deny-list
("blacklist") and allow-list ("whitelist"), validates that exactly one of
the two is supplied, and merges the selection against a static pipeline
registry partitioned into a global and a local scope, producing a
scope-keyed map of resolved pipelines.
-/

/-- Modelled from the spec (the struct declarations are not part of the
analysed file): an allow-list entry, carrying a resource name and the
event set that overrides the pipeline's default events.  In the code this
is the element type of `MeshsyncConfig.WhiteList`. -/
structure ResourceConfig where
  Resource : String
  Events : List String
deriving DecidableEq

/-- Modelled from the spec (the struct declarations are not part of the
analysed file): a pipeline definition, carrying a resource-kind name and
an event set (the registry's per-definition default events). -/
structure PipelineConfig where
  Name : String
  Events : List String
deriving DecidableEq

abbrev PipelineConfigs := List PipelineConfig

/-- The pipeline registry: a map from scope key to an ordered list of
pipeline definitions, modelled as an association list.  The Go code reads
it through the package-level map `Pipelines`. -/
abbrev Registry := List (String × PipelineConfigs)

/-- Modelled from the spec: the key of the globally-scoped partition of
the registry (the constant `GlobalResourceKey`, not in the analysed file). -/
def GlobalResourceKey : String := "global"

/-- Modelled from the spec: the key of the locally-scoped partition of
the registry (the constant `LocalResourceKey`, not in the analysed file). -/
def LocalResourceKey : String := "local"

/-- Modelled from the spec: the process-wide default event set, used only
in the deny-list path (the constant `DefaultEvents`, not in the analysed
file; the spec fixes neither its contents nor that it varies per
definition — it is a single constant, modelled here with the standard
add/update/delete event kinds). -/
def DefaultEvents : List String := ["ADD", "UPDATE", "DELETE"]

/-- Go map indexing `reg[key]`: the first binding of `key`, or the zero
value (empty list) when the key is absent. -/
def lookupScope (reg : Registry) (key : String) : PipelineConfigs :=
  match reg.find? (fun kv => kv.1 == key) with
  | some kv => kv.2
  | none => []

/-- The output configuration (`MeshsyncConfig`, declaration not in the
analysed file; fields restricted to the ones the resolver touches).
`Pipelines = []` models the nil map. -/
structure MeshsyncConfig where
  BlackList : List String
  WhiteList : List ResourceConfig
  Pipelines : List (String × PipelineConfigs)
deriving DecidableEq

/-- The errors `PopulateConfigsFromMap` can return; all are wrapped in
`ErrInitConfig`, distinguished here by constructor.  `missingSelection` is
the "Both whitelisted and blacklisted resources missing" error,
`conflictingSelection` the "... not currently supported" error, and
`unmarshalError` wraps a `utils.Unmarshal` failure. -/
inductive ConfigError where
  | missingSelection
  | conflictingSelection
  | unmarshalError (msg : String)
deriving DecidableEq

/-- The ambient state a call to the resolver can read or write: the
package-level registry `Pipelines` and the unmarshalled selection held in
the config under construction.  Threading it through the loops makes the
absence of mutation a provable statement rather than a modelling
assumption. -/
structure ResolverState where
  Pipelines : Registry
  BlackList : List String
  WhiteList : List ResourceConfig
deriving DecidableEq

/-- The allow-list ("whitelist") loop of `PopulateConfigsFromMap`
(lines 129–135 and 142–148): for each registry definition `v`, look up
the first allow-list entry whose `Resource` equals `v.Name`
(`slices.IndexFunc` followed by indexing, i.e. `find?`); if found, append
a copy of `v` with `Events` replaced by the entry's events.  The loop
variable `v` is a copy of the slice element, and the state is only read,
so the state is returned as it was at each step. -/
def allowLoop (st : ResolverState) :
    List PipelineConfig → PipelineConfigs → ResolverState × PipelineConfigs
  | [], acc => (st, acc)
  | v :: rest, acc =>
    match st.WhiteList.find? (fun c => c.Resource == v.Name) with
    | some config => allowLoop st rest (acc ++ [{ v with Events := config.Events }])
    | none => allowLoop st rest acc

/-- The deny-list ("blacklist") loop of `PopulateConfigsFromMap`
(lines 159–164 and 171–176): a registry definition `v` is appended, with
`Events` set to the constant `DefaultEvents`, exactly when no deny-list
entry equals `v.Name` (`slices.IndexFunc` returning `-1`). -/
def denyLoop (st : ResolverState) :
    List PipelineConfig → PipelineConfigs → ResolverState × PipelineConfigs
  | [], acc => (st, acc)
  | v :: rest, acc =>
    match st.BlackList.find? (fun c => c == v.Name) with
    | some _ => denyLoop st rest acc
    | none => denyLoop st rest (acc ++ [{ v with Events := DefaultEvents }])

/-- Adding one scope's pipelines to the output map: the key is written
only when the list is non-empty (`if len(...) > 0`), mirroring
lines 136–139, 150–155, 165–168 and 178–183. -/
def addScope (m : List (String × PipelineConfigs)) (key : String)
    (ps : PipelineConfigs) : List (String × PipelineConfigs) :=
  if ps.length > 0 then m ++ [(key, ps)] else m

/-- The selection-resolution part of `PopulateConfigsFromMap`
(lines 114–186): validate mutual exclusion of the two lists, then run the
allow-list or deny-list loops over the global and local registry scopes.
Returns the final ambient state together with the Go return pair
`(*MeshsyncConfig, error)`, where `none` models the nil pointer / nil
error. -/
def resolveSelection (st : ResolverState) :
    ResolverState × Option MeshsyncConfig × Option ConfigError :=
  if st.BlackList.length = 0 ∧ st.WhiteList.length = 0 then
    (st, none, some ConfigError.missingSelection)
  else if st.BlackList.length ≠ 0 ∧ st.WhiteList.length ≠ 0 then
    (st, none, some ConfigError.conflictingSelection)
  else if st.WhiteList.length ≠ 0 then
    let rg := allowLoop st (lookupScope st.Pipelines GlobalResourceKey) []
    let m1 := addScope [] GlobalResourceKey rg.2
    let rl := allowLoop rg.1 (lookupScope rg.1.Pipelines LocalResourceKey) []
    let m2 := addScope m1 LocalResourceKey rl.2
    (rl.1, some { BlackList := rl.1.BlackList, WhiteList := rl.1.WhiteList,
                  Pipelines := m2 }, none)
  else
    let rg := denyLoop st (lookupScope st.Pipelines GlobalResourceKey) []
    let m1 := addScope [] GlobalResourceKey rg.2
    let rl := denyLoop rg.1 (lookupScope rg.1.Pipelines LocalResourceKey) []
    let m2 := addScope m1 LocalResourceKey rl.2
    (rl.1, some { BlackList := rl.1.BlackList, WhiteList := rl.1.WhiteList,
                  Pipelines := m2 }, none)

/-- `PopulateConfigsFromMap` (lines 93–187).  The input map is an
association list of string keys and values; `utils.Unmarshal` is external
code, abstracted as the two parsing parameters.  A key is unmarshalled
only when present with a non-empty value (lines 96–112); a parse failure
is returned as `ErrInitConfig(err)` with a nil config. -/
def PopulateConfigsFromMap (reg : Registry)
    (unmarshalBlackList : String → Except String (List String))
    (unmarshalWhiteList : String → Except String (List ResourceConfig))
    (data : List (String × String)) :
    Option MeshsyncConfig × Option ConfigError :=
  let blParsed : Except String (List String) :=
    match data.find? (fun kv => kv.1 == "blacklist") with
    | some kv => if kv.2.length > 0 then unmarshalBlackList kv.2 else Except.ok []
    | none => Except.ok []
  match blParsed with
  | Except.error msg => (none, some (ConfigError.unmarshalError msg))
  | Except.ok blackList =>
    let wlParsed : Except String (List ResourceConfig) :=
      match data.find? (fun kv => kv.1 == "whitelist") with
      | some kv => if kv.2.length > 0 then unmarshalWhiteList kv.2 else Except.ok []
      | none => Except.ok []
    match wlParsed with
    | Except.error msg => (none, some (ConfigError.unmarshalError msg))
    | Except.ok whiteList =>
      (resolveSelection
        { Pipelines := reg, BlackList := blackList, WhiteList := whiteList }).2

/-- Declarative form of the allow-list loop: keep exactly the registry
definitions having a first matching allow-list entry, with that entry's
events. -/
def allowResolved (wl : List ResourceConfig) (defs : PipelineConfigs) :
    PipelineConfigs :=
  defs.filterMap (fun v =>
    match wl.find? (fun c => c.Resource == v.Name) with
    | some c => some { v with Events := c.Events }
    | none => none)

/-- Declarative form of the deny-list loop: keep exactly the registry
definitions whose name has no match in the deny-list, with the constant
default events. -/
def denyResolved (bl : List String) (defs : PipelineConfigs) :
    PipelineConfigs :=
  defs.filterMap (fun v =>
    match bl.find? (fun c => c == v.Name) with
    | some _ => none
    | none => some { v with Events := DefaultEvents })

/-- The pipelines a resolved configuration holds for one scope key (empty
when the key is absent, as for a Go nil-map read). -/
def scopePipelines (cfg : MeshsyncConfig) (key : String) : PipelineConfigs :=
  lookupScope cfg.Pipelines key

/-- The pipelines the resolver enables for one scope of the registry,
given a selection. -/
def enabledFor (reg : Registry) (bl : List String) (wl : List ResourceConfig)
    (key : String) : PipelineConfigs :=
  if wl.length ≠ 0 then allowResolved wl (lookupScope reg key)
  else denyResolved bl (lookupScope reg key)

/-- The registry of the spec's scenarios: global = Pod with default
events ADD, DELETE; local = Service with default event ADD. -/
def scenarioRegistry : Registry :=
  [(GlobalResourceKey, [{ Name := "Pod", Events := ["ADD", "DELETE"] }]),
   (LocalResourceKey, [{ Name := "Service", Events := ["ADD"] }])]

theorem allowLoop_fst (st : ResolverState) (defs : List PipelineConfig)
    (acc : PipelineConfigs) : (allowLoop st defs acc).1 = st := by
  induction defs generalizing acc with
  | nil => rfl
  | cons v rest ih =>
    rw [allowLoop]
    cases st.WhiteList.find? (fun c => c.Resource == v.Name) <;> exact ih _

theorem denyLoop_fst (st : ResolverState) (defs : List PipelineConfig)
    (acc : PipelineConfigs) : (denyLoop st defs acc).1 = st := by
  induction defs generalizing acc with
  | nil => rfl
  | cons v rest ih =>
    rw [denyLoop]
    cases st.BlackList.find? (fun c => c == v.Name) <;> exact ih _

theorem allowLoop_snd (st : ResolverState) (defs : List PipelineConfig)
    (acc : PipelineConfigs) :
    (allowLoop st defs acc).2 = acc ++ allowResolved st.WhiteList defs := by
  induction defs generalizing acc with
  | nil => simp [allowLoop, allowResolved]
  | cons v rest ih =>
    rw [allowLoop]
    cases h : st.WhiteList.find? (fun c => c.Resource == v.Name) with
    | some c => simp [allowResolved, List.filterMap_cons, h, ih]
    | none => simp [allowResolved, List.filterMap_cons, h, ih]

theorem denyLoop_snd (st : ResolverState) (defs : List PipelineConfig)
    (acc : PipelineConfigs) :
    (denyLoop st defs acc).2 = acc ++ denyResolved st.BlackList defs := by
  induction defs generalizing acc with
  | nil => simp [denyLoop, denyResolved]
  | cons v rest ih =>
    rw [denyLoop]
    cases h : st.BlackList.find? (fun c => c == v.Name) with
    | some c => simp [denyResolved, List.filterMap_cons, h, ih]
    | none => simp [denyResolved, List.filterMap_cons, h, ih]

theorem resolveSelection_missing (reg : Registry) :
    resolveSelection { Pipelines := reg, BlackList := [], WhiteList := [] } =
      ({ Pipelines := reg, BlackList := [], WhiteList := [] }, none,
       some ConfigError.missingSelection) := by
  simp [resolveSelection]

theorem resolveSelection_conflict (reg : Registry) (bl : List String)
    (wl : List ResourceConfig) (hbl : bl ≠ []) (hwl : wl ≠ []) :
    resolveSelection { Pipelines := reg, BlackList := bl, WhiteList := wl } =
      ({ Pipelines := reg, BlackList := bl, WhiteList := wl }, none,
       some ConfigError.conflictingSelection) := by
  have h1 : bl.length ≠ 0 := by simpa [List.length_eq_zero] using hbl
  have h2 : wl.length ≠ 0 := by simpa [List.length_eq_zero] using hwl
  simp [resolveSelection, h1, h2]

theorem resolveSelection_allow (reg : Registry) (wl : List ResourceConfig)
    (hwl : wl ≠ []) :
    resolveSelection { Pipelines := reg, BlackList := [], WhiteList := wl } =
      ({ Pipelines := reg, BlackList := [], WhiteList := wl },
       some { BlackList := [], WhiteList := wl,
              Pipelines :=
                addScope
                  (addScope [] GlobalResourceKey
                    (allowResolved wl (lookupScope reg GlobalResourceKey)))
                  LocalResourceKey
                  (allowResolved wl (lookupScope reg LocalResourceKey)) },
       none) := by
  have h2 : wl.length ≠ 0 := by simpa [List.length_eq_zero] using hwl
  simp [resolveSelection, h2, allowLoop_fst, allowLoop_snd]

theorem resolveSelection_deny (reg : Registry) (bl : List String)
    (hbl : bl ≠ []) :
    resolveSelection { Pipelines := reg, BlackList := bl, WhiteList := [] } =
      ({ Pipelines := reg, BlackList := bl, WhiteList := [] },
       some { BlackList := bl, WhiteList := [],
              Pipelines :=
                addScope
                  (addScope [] GlobalResourceKey
                    (denyResolved bl (lookupScope reg GlobalResourceKey)))
                  LocalResourceKey
                  (denyResolved bl (lookupScope reg LocalResourceKey)) },
       none) := by
  have h1 : bl.length ≠ 0 := by simpa [List.length_eq_zero] using hbl
  simp [resolveSelection, h1, denyLoop_fst, denyLoop_snd]

theorem globalKey_ne_localKey : GlobalResourceKey ≠ LocalResourceKey := by
  decide

theorem lookupScope_scopesMap_global (gp lp : PipelineConfigs) :
    lookupScope (addScope (addScope [] GlobalResourceKey gp) LocalResourceKey lp)
      GlobalResourceKey = gp := by
  have hb : (LocalResourceKey == GlobalResourceKey) = false := by decide
  unfold addScope lookupScope
  rcases gp with _ | ⟨g, gs⟩ <;> rcases lp with _ | ⟨l, ls⟩ <;>
    simp [List.find?, hb]

theorem lookupScope_scopesMap_local (gp lp : PipelineConfigs) :
    lookupScope (addScope (addScope [] GlobalResourceKey gp) LocalResourceKey lp)
      LocalResourceKey = lp := by
  have hb : (GlobalResourceKey == LocalResourceKey) = false := by decide
  unfold addScope lookupScope
  rcases gp with _ | ⟨g, gs⟩ <;> rcases lp with _ | ⟨l, ls⟩ <;>
    simp [List.find?, hb]

theorem lookupScope_scopesMap_other (gp lp : PipelineConfigs) (key : String)
    (hg : key ≠ GlobalResourceKey) (hl : key ≠ LocalResourceKey) :
    lookupScope (addScope (addScope [] GlobalResourceKey gp) LocalResourceKey lp)
      key = [] := by
  have hb1 : (GlobalResourceKey == key) = false := by
    simp [Ne.symm hg]
  have hb2 : (LocalResourceKey == key) = false := by
    simp [Ne.symm hl]
  unfold addScope lookupScope
  rcases gp with _ | ⟨g, gs⟩ <;> rcases lp with _ | ⟨l, ls⟩ <;>
    simp [List.find?, hb1, hb2]

theorem mem_scopesMap (gp lp : PipelineConfigs) (key : String)
    (ps : PipelineConfigs) :
    (key, ps) ∈ addScope (addScope [] GlobalResourceKey gp) LocalResourceKey lp ↔
      (key = GlobalResourceKey ∧ ps = gp ∧ gp ≠ []) ∨
      (key = LocalResourceKey ∧ ps = lp ∧ lp ≠ []) := by
  unfold addScope
  rcases gp with _ | ⟨g, gs⟩ <;> rcases lp with _ | ⟨l, ls⟩ <;>
    simp [Prod.ext_iff]

theorem find?_beq_eq (bl : List String) (n : String) :
    bl.find? (fun c => c == n) = if n ∈ bl then some n else none := by
  induction bl with
  | nil => simp
  | cons a rest ih =>
    by_cases h : a = n
    · subst h
      simp [List.find?_cons]
    · have hb : (a == n) = false := by simp [h]
      simp [List.find?_cons, hb, ih, h, Ne.symm h]

theorem allowResolved_congr (wl wl' : List ResourceConfig)
    (h : ∀ n, wl.find? (fun c => c.Resource == n) =
              wl'.find? (fun c => c.Resource == n))
    (defs : PipelineConfigs) :
    allowResolved wl defs = allowResolved wl' defs := by
  induction defs with
  | nil => rfl
  | cons v rest ih =>
    simp only [allowResolved, List.filterMap_cons] at ih ⊢
    rw [h v.Name, ih]

theorem denyResolved_congr (bl bl' : List String)
    (h : ∀ n, n ∈ bl ↔ n ∈ bl') (defs : PipelineConfigs) :
    denyResolved bl defs = denyResolved bl' defs := by
  induction defs with
  | nil => rfl
  | cons v rest ih =>
    simp only [denyResolved, List.filterMap_cons] at ih ⊢
    rw [find?_beq_eq, find?_beq_eq, ih]
    by_cases hv : v.Name ∈ bl
    · simp [hv, (h v.Name).mp hv]
    · have hv' : v.Name ∉ bl' := fun hx => hv ((h v.Name).mpr hx)
      simp [hv, hv']

theorem filterMap_names_sublist (f : PipelineConfig → Option PipelineConfig)
    (hf : ∀ v r, f v = some r → r.Name = v.Name) (defs : PipelineConfigs) :
    ((defs.filterMap f).map PipelineConfig.Name).Sublist
      (defs.map PipelineConfig.Name) := by
  induction defs with
  | nil => simp
  | cons v rest ih =>
    rw [List.filterMap_cons]
    cases h : f v with
    | none =>
      simp only [List.map_cons]
      exact ih.cons _
    | some r =>
      simp only [List.map_cons, hf v r h]
      exact ih.cons₂ _

theorem allowResolved_names_sublist (wl : List ResourceConfig)
    (defs : PipelineConfigs) :
    ((allowResolved wl defs).map PipelineConfig.Name).Sublist
      (defs.map PipelineConfig.Name) := by
  apply filterMap_names_sublist
  intro v r h
  cases hf : wl.find? (fun c => c.Resource == v.Name) with
  | none => simp [hf] at h
  | some c =>
    simp only [hf] at h
    simp only [Option.some.injEq] at h
    simp [← h]

theorem denyResolved_names_sublist (bl : List String)
    (defs : PipelineConfigs) :
    ((denyResolved bl defs).map PipelineConfig.Name).Sublist
      (defs.map PipelineConfig.Name) := by
  apply filterMap_names_sublist
  intro v r h
  cases hf : bl.find? (fun c => c == v.Name) with
  | some c => simp [hf] at h
  | none =>
    simp only [hf] at h
    simp only [Option.some.injEq] at h
    simp [← h]

theorem mem_allowResolved (wl : List ResourceConfig) (defs : PipelineConfigs)
    (p : PipelineConfig) :
    p ∈ allowResolved wl defs ↔
      ∃ v ∈ defs, ∃ c, wl.find? (fun c2 => c2.Resource == v.Name) = some c ∧
        p = { v with Events := c.Events } := by
  simp only [allowResolved, List.mem_filterMap]
  constructor
  · rintro ⟨v, hv, hfv⟩
    cases hf : wl.find? (fun c => c.Resource == v.Name) with
    | none => rw [hf] at hfv; simp at hfv
    | some c =>
      rw [hf] at hfv
      simp only [Option.some.injEq] at hfv
      exact ⟨v, hv, c, hf, hfv.symm⟩
  · rintro ⟨v, hv, c, hf, hp⟩
    exact ⟨v, hv, by rw [hf, hp]⟩

theorem mem_denyResolved (bl : List String) (defs : PipelineConfigs)
    (p : PipelineConfig) :
    p ∈ denyResolved bl defs ↔
      ∃ v ∈ defs, v.Name ∉ bl ∧ p = { v with Events := DefaultEvents } := by
  simp only [denyResolved, List.mem_filterMap]
  constructor
  · rintro ⟨v, hv, hfv⟩
    rw [find?_beq_eq] at hfv
    by_cases h : v.Name ∈ bl
    · simp [h] at hfv
    · simp only [h, if_false] at hfv
      simp only [Option.some.injEq] at hfv
      exact ⟨v, hv, h, hfv.symm⟩
  · rintro ⟨v, hv, h, hp⟩
    refine ⟨v, hv, ?_⟩
    rw [find?_beq_eq]
    simp [h, hp]

theorem countP_denyResolved (bl : List String) (defs : PipelineConfigs)
    (n : String) :
    (denyResolved bl defs).countP (fun p => p.Name == n) =
      if n ∈ bl then 0 else defs.countP (fun v => v.Name == n) := by
  induction defs with
  | nil => simp [denyResolved]
  | cons v rest ih =>
    simp only [denyResolved, List.filterMap_cons] at ih ⊢
    rw [find?_beq_eq]
    by_cases hv : v.Name ∈ bl
    · simp only [hv, if_true]
      by_cases hn : n ∈ bl
      · simp [ih, hn]
      · have hne : (v.Name == n) = false := by
          simp
          intro he
          exact hn (he ▸ hv)
        simp [ih, hn, List.countP_cons, hne]
    · simp only [hv, if_false]
      by_cases hn : n ∈ bl
      · have hne : (v.Name == n) = false := by
          simp
          intro he
          exact hv (he ▸ hn)
        simp [ih, hn, List.countP_cons, hne]
      · simp [ih, hn, List.countP_cons]

theorem resolveSelection_fst (st : ResolverState) :
    (resolveSelection st).1 = st := by
  unfold resolveSelection
  split_ifs <;> simp [allowLoop_fst, denyLoop_fst]

theorem resolveSelection_error_none (st : ResolverState)
    (h : ((resolveSelection st).2.2).isSome = true) :
    (resolveSelection st).2.1 = none := by
  unfold resolveSelection at h ⊢
  split_ifs at h ⊢ <;> simp_all [allowLoop_fst, denyLoop_fst]

theorem resolved_config_eq (reg : Registry) (bl : List String)
    (wl : List ResourceConfig) (cfg : MeshsyncConfig)
    (hcfg : (resolveSelection
      { Pipelines := reg, BlackList := bl, WhiteList := wl }).2.1 = some cfg) :
    cfg = { BlackList := bl, WhiteList := wl,
            Pipelines :=
              addScope
                (addScope [] GlobalResourceKey
                  (enabledFor reg bl wl GlobalResourceKey))
                LocalResourceKey (enabledFor reg bl wl LocalResourceKey) } := by
  rcases eq_or_ne wl [] with hwl | hwl
  · rcases eq_or_ne bl [] with hbl | hbl
    · subst hwl hbl
      rw [resolveSelection_missing] at hcfg
      simp at hcfg
    · subst hwl
      rw [resolveSelection_deny reg bl hbl] at hcfg
      simp only [Option.some.injEq] at hcfg
      rw [← hcfg]
      simp [enabledFor]
  · rcases eq_or_ne bl [] with hbl | hbl
    · subst hbl
      rw [resolveSelection_allow reg wl hwl] at hcfg
      simp only [Option.some.injEq] at hcfg
      rw [← hcfg]
      have h2 : wl.length ≠ 0 := by simpa [List.length_eq_zero] using hwl
      simp [enabledFor, h2]
    · rw [resolveSelection_conflict reg bl wl hbl hwl] at hcfg
      simp at hcfg

theorem resolved_config_some (reg : Registry) (bl : List String)
    (wl : List ResourceConfig) (hvalid : bl = [] ↔ wl ≠ []) :
    (resolveSelection
      { Pipelines := reg, BlackList := bl, WhiteList := wl }).2 =
      (some { BlackList := bl, WhiteList := wl,
              Pipelines :=
                addScope
                  (addScope [] GlobalResourceKey
                    (enabledFor reg bl wl GlobalResourceKey))
                  LocalResourceKey (enabledFor reg bl wl LocalResourceKey) },
       none) := by
  rcases eq_or_ne wl [] with hwl | hwl
  · have hbl : bl ≠ [] := by
      intro hb
      exact (hvalid.mp hb) hwl
    subst hwl
    rw [resolveSelection_deny reg bl hbl]
    simp [enabledFor]
  · have hbl : bl = [] := hvalid.mpr hwl
    subst hbl
    rw [resolveSelection_allow reg wl hwl]
    have h2 : wl.length ≠ 0 := by simpa [List.length_eq_zero] using hwl
    simp [enabledFor, h2]

/-- C1: for every input selection, if both the deny-list and the
allow-list are empty, resolution fails with the MissingSelection
validation error, and if both are non-empty it fails with the
ConflictingSelection validation error; in both cases no resolved
configuration is produced (the returned config is nil). -/
theorem mutual_exclusion_errors (reg : Registry) (bl : List String)
    (wl : List ResourceConfig) (hbl : bl ≠ []) (hwl : wl ≠ []) :
    (resolveSelection
      { Pipelines := reg, BlackList := [], WhiteList := [] }).2 =
      (none, some ConfigError.missingSelection) ∧
    (resolveSelection
      { Pipelines := reg, BlackList := bl, WhiteList := wl }).2 =
      (none, some ConfigError.conflictingSelection) := by
  constructor
  · rw [resolveSelection_missing]
  · rw [resolveSelection_conflict reg bl wl hbl hwl]

theorem mutual_exclusion_errors_witness :
    (["Pod"] : List String) ≠ [] ∧
    ([{ Resource := "Service", Events := ["ADD"] }] : List ResourceConfig) ≠ [] ∧
    ((resolveSelection
      { Pipelines := scenarioRegistry, BlackList := [], WhiteList := [] }).2 =
      (none, some ConfigError.missingSelection) ∧
     (resolveSelection
      { Pipelines := scenarioRegistry, BlackList := ["Pod"],
        WhiteList := [{ Resource := "Service", Events := ["ADD"] }] }).2 =
      (none, some ConfigError.conflictingSelection)) :=
  ⟨by decide, by decide,
   mutual_exclusion_errors scenarioRegistry ["Pod"]
     [{ Resource := "Service", Events := ["ADD"] }] (by decide) (by decide)⟩

/-- C7: resolution never mutates the pipeline registry or the input
selection: the ambient state (registry, deny-list, allow-list) after the
call equals the state before it, and when a configuration is returned its
retained deny-list and allow-list are exactly the caller's. -/
theorem resolve_no_mutation (reg : Registry) (bl : List String)
    (wl : List ResourceConfig) :
    (resolveSelection
      { Pipelines := reg, BlackList := bl, WhiteList := wl }).1 =
      { Pipelines := reg, BlackList := bl, WhiteList := wl } ∧
    (resolveSelection
      { Pipelines := reg, BlackList := bl, WhiteList := wl }).2.1.map
        MeshsyncConfig.BlackList =
      (resolveSelection
        { Pipelines := reg, BlackList := bl, WhiteList := wl }).2.1.map
        (fun _ => bl) ∧
    (resolveSelection
      { Pipelines := reg, BlackList := bl, WhiteList := wl }).2.1.map
        MeshsyncConfig.WhiteList =
      (resolveSelection
        { Pipelines := reg, BlackList := bl, WhiteList := wl }).2.1.map
        (fun _ => wl) := by
  refine ⟨resolveSelection_fst _, ?_, ?_⟩ <;>
  · cases hcfg : (resolveSelection
      { Pipelines := reg, BlackList := bl, WhiteList := wl }).2.1 with
    | none => rfl
    | some cfg =>
      rw [resolved_config_eq reg bl wl cfg hcfg]
      rfl

/-- C9: resolution is idempotent and deterministic: a second call made in
the state the first call left behind (same registry, same selection)
returns a structurally identical result, order included. -/
theorem resolve_idempotent (reg : Registry) (bl : List String)
    (wl : List ResourceConfig) :
    resolveSelection
      ((resolveSelection
        { Pipelines := reg, BlackList := bl, WhiteList := wl }).1) =
    resolveSelection
      { Pipelines := reg, BlackList := bl, WhiteList := wl } := by
  rw [resolveSelection_fst]

/-- C10: whenever `PopulateConfigsFromMap` returns a non-nil error, the
returned configuration pointer is nil: the caller never receives a
partially populated configuration together with an error. -/
theorem populate_error_implies_nil_config (reg : Registry)
    (unmarshalBlackList : String → Except String (List String))
    (unmarshalWhiteList : String → Except String (List ResourceConfig))
    (data : List (String × String))
    (h : ((PopulateConfigsFromMap reg unmarshalBlackList unmarshalWhiteList
            data).2).isSome = true) :
    (PopulateConfigsFromMap reg unmarshalBlackList unmarshalWhiteList
      data).1 = none := by
  simp only [PopulateConfigsFromMap] at h ⊢
  cases hb : (match data.find? (fun kv => kv.1 == "blacklist") with
    | some kv => if kv.2.length > 0 then unmarshalBlackList kv.2
                 else Except.ok []
    | none => Except.ok ([] : List String)) with
  | error msg => simp [hb]
  | ok blackList =>
    cases hw : (match data.find? (fun kv => kv.1 == "whitelist") with
      | some kv => if kv.2.length > 0 then unmarshalWhiteList kv.2
                   else Except.ok []
      | none => Except.ok ([] : List ResourceConfig)) with
    | error msg => simp [hb, hw]
    | ok whiteList =>
      simp only [hb, hw] at h ⊢
      exact resolveSelection_error_none _ h

theorem populate_error_implies_nil_config_witness :
    ((PopulateConfigsFromMap [] (fun s => Except.ok [s])
        (fun _ => Except.ok []) []).2).isSome = true ∧
    (PopulateConfigsFromMap [] (fun s => Except.ok [s])
        (fun _ => Except.ok []) []).1 = none :=
  ⟨by decide,
   populate_error_implies_nil_config [] (fun s => Except.ok [s])
     (fun _ => Except.ok []) [] (by decide)⟩

theorem resolved_scopePipelines (reg : Registry) (bl : List String)
    (wl : List ResourceConfig) (cfg : MeshsyncConfig)
    (hcfg : (resolveSelection
      { Pipelines := reg, BlackList := bl, WhiteList := wl }).2.1 = some cfg) :
    scopePipelines cfg GlobalResourceKey =
      enabledFor reg bl wl GlobalResourceKey ∧
    scopePipelines cfg LocalResourceKey =
      enabledFor reg bl wl LocalResourceKey ∧
    (∀ key, key ≠ GlobalResourceKey → key ≠ LocalResourceKey →
      scopePipelines cfg key = []) := by
  rw [resolved_config_eq reg bl wl cfg hcfg]
  refine ⟨?_, ?_, ?_⟩
  · exact lookupScope_scopesMap_global _ _
  · exact lookupScope_scopesMap_local _ _
  · intro key hg hl
    exact lookupScope_scopesMap_other _ _ key hg hl

/-- C2: in the allow-list path, for each scope a registry definition
appears in the scope's output list exactly when some allow-list entry's
resource name equals the definition's name; an appearing definition
carries the events of the first matching entry, and a definition with no
matching entry is excluded entirely. -/
theorem allow_path_resolution (reg : Registry) (wl : List ResourceConfig)
    (hwl : wl ≠ []) (key : String)
    (hkey : key = GlobalResourceKey ∨ key = LocalResourceKey) :
    ∃ cfg,
      (resolveSelection
        { Pipelines := reg, BlackList := [], WhiteList := wl }).2.1 =
        some cfg ∧
      scopePipelines cfg key = allowResolved wl (lookupScope reg key) ∧
      (∀ v ∈ lookupScope reg key,
        ((∃ c ∈ wl, c.Resource = v.Name) ↔
          ∃ p ∈ scopePipelines cfg key, p.Name = v.Name)) ∧
      (∀ v ∈ lookupScope reg key, ∀ c,
        wl.find? (fun c2 => c2.Resource == v.Name) = some c →
        { v with Events := c.Events } ∈ scopePipelines cfg key) := by
  rw [resolveSelection_allow reg wl hwl]
  refine ⟨_, rfl, ?_⟩
  have hsp : scopePipelines
      { BlackList := ([] : List String), WhiteList := wl,
        Pipelines :=
          addScope
            (addScope [] GlobalResourceKey
              (allowResolved wl (lookupScope reg GlobalResourceKey)))
            LocalResourceKey
            (allowResolved wl (lookupScope reg LocalResourceKey)) } key =
      allowResolved wl (lookupScope reg key) := by
    rcases hkey with h | h <;> subst h
    · exact lookupScope_scopesMap_global _ _
    · exact lookupScope_scopesMap_local _ _
  refine ⟨hsp, ?_, ?_⟩
  · intro v hv
    rw [hsp]
    constructor
    · rintro ⟨c, hc, hceq⟩
      have hsome : (wl.find? (fun c2 => c2.Resource == v.Name)).isSome := by
        rw [List.find?_isSome]
        exact ⟨c, hc, by simp [hceq]⟩
      rcases Option.isSome_iff_exists.mp hsome with ⟨c0, hc0⟩
      refine ⟨{ v with Events := c0.Events }, ?_, rfl⟩
      rw [mem_allowResolved]
      exact ⟨v, hv, c0, hc0, rfl⟩
    · rintro ⟨p, hp, hpn⟩
      rw [mem_allowResolved] at hp
      rcases hp with ⟨u, hu, c, hfc, hpu⟩
      have hcu : c.Resource = u.Name := by
        have := List.find?_some hfc
        simpa using this
      refine ⟨c, List.mem_of_find?_eq_some hfc, ?_⟩
      rw [hcu, ← hpn, hpu]
  · intro v hv c hfc
    rw [hsp, mem_allowResolved]
    exact ⟨v, hv, c, hfc, rfl⟩

theorem allow_path_resolution_witness :
    ([{ Resource := "Pod", Events := ["UPDATE"] }] : List ResourceConfig) ≠ [] ∧
    (GlobalResourceKey = GlobalResourceKey ∨
     GlobalResourceKey = LocalResourceKey) ∧
    (∃ cfg,
      (resolveSelection
        { Pipelines := scenarioRegistry, BlackList := [],
          WhiteList := [{ Resource := "Pod", Events := ["UPDATE"] }] }).2.1 =
        some cfg ∧
      scopePipelines cfg GlobalResourceKey =
        allowResolved [{ Resource := "Pod", Events := ["UPDATE"] }]
          (lookupScope scenarioRegistry GlobalResourceKey) ∧
      (∀ v ∈ lookupScope scenarioRegistry GlobalResourceKey,
        ((∃ c ∈ [{ Resource := "Pod", Events := ["UPDATE"] }],
            ResourceConfig.Resource c = v.Name) ↔
          ∃ p ∈ scopePipelines cfg GlobalResourceKey, p.Name = v.Name)) ∧
      (∀ v ∈ lookupScope scenarioRegistry GlobalResourceKey,
        ∀ c : ResourceConfig,
        List.find? (fun c2 : ResourceConfig => c2.Resource == v.Name)
          [{ Resource := "Pod", Events := ["UPDATE"] }] = some c →
        { v with Events := c.Events } ∈ scopePipelines cfg GlobalResourceKey)) :=
  ⟨by decide, Or.inl rfl,
   allow_path_resolution scenarioRegistry
     [{ Resource := "Pod", Events := ["UPDATE"] }] (by decide)
     GlobalResourceKey (Or.inl rfl)⟩

/-- C3: in the deny-list path, for each scope every pipeline in the
output has a name absent from the deny-list, and (with the spec's
invariant that names are unique within a scope) every registry definition
whose name is absent from the deny-list appears exactly once in its
scope's output list. -/
theorem deny_path_exclusion (reg : Registry) (bl : List String)
    (hbl : bl ≠ []) (key : String)
    (hkey : key = GlobalResourceKey ∨ key = LocalResourceKey)
    (hnodup : ((lookupScope reg key).map PipelineConfig.Name).Nodup) :
    ∃ cfg,
      (resolveSelection
        { Pipelines := reg, BlackList := bl, WhiteList := [] }).2.1 =
        some cfg ∧
      (∀ p ∈ scopePipelines cfg key, p.Name ∉ bl) ∧
      (∀ v ∈ lookupScope reg key, v.Name ∉ bl →
        (scopePipelines cfg key).countP (fun p => p.Name == v.Name) = 1) := by
  rw [resolveSelection_deny reg bl hbl]
  refine ⟨_, rfl, ?_⟩
  have hsp : scopePipelines
      { BlackList := bl, WhiteList := ([] : List ResourceConfig),
        Pipelines :=
          addScope
            (addScope [] GlobalResourceKey
              (denyResolved bl (lookupScope reg GlobalResourceKey)))
            LocalResourceKey
            (denyResolved bl (lookupScope reg LocalResourceKey)) } key =
      denyResolved bl (lookupScope reg key) := by
    rcases hkey with h | h <;> subst h
    · exact lookupScope_scopesMap_global _ _
    · exact lookupScope_scopesMap_local _ _
  refine ⟨?_, ?_⟩
  · intro p hp
    rw [hsp, mem_denyResolved] at hp
    rcases hp with ⟨v, hv, hvn, hpv⟩
    rw [hpv]
    exact hvn
  · intro v hv hvn
    rw [hsp, countP_denyResolved, if_neg hvn]
    have h1 : (lookupScope reg key).countP (fun u => u.Name == v.Name) =
        ((lookupScope reg key).map PipelineConfig.Name).countP
          (fun x => x == v.Name) := by
      rw [List.countP_map]
      rfl
    rw [h1, ← List.count_eq_countP]
    exact List.count_eq_one_of_mem hnodup
      (List.mem_map_of_mem PipelineConfig.Name hv)

theorem deny_path_exclusion_witness :
    (["Pod"] : List String) ≠ [] ∧
    (LocalResourceKey = GlobalResourceKey ∨
     LocalResourceKey = LocalResourceKey) ∧
    ((lookupScope scenarioRegistry LocalResourceKey).map
      PipelineConfig.Name).Nodup ∧
    (∃ cfg,
      (resolveSelection
        { Pipelines := scenarioRegistry, BlackList := ["Pod"],
          WhiteList := [] }).2.1 = some cfg ∧
      (∀ p ∈ scopePipelines cfg LocalResourceKey, p.Name ∉ ["Pod"]) ∧
      (∀ v ∈ lookupScope scenarioRegistry LocalResourceKey,
        v.Name ∉ ["Pod"] →
        (scopePipelines cfg LocalResourceKey).countP
          (fun p => p.Name == v.Name) = 1)) :=
  ⟨by decide, Or.inr rfl, by decide,
   deny_path_exclusion scenarioRegistry ["Pod"] (by decide)
     LocalResourceKey (Or.inr rfl) (by decide)⟩

/-- C4 counterexample: on the scenario registry (global = Pod with
defaults ADD, DELETE; local = Service with default ADD), the claim
implies that denying Pod yields Service with its own default events ADD,
and that denying Service yields Pod with its own default events
ADD, DELETE.  The code cannot satisfy both: the deny path overwrites the
events of every included pipeline with the one process-wide constant
`DefaultEvents`, so the two outputs always carry the same event set, and
the conjunction fails whatever value that constant has. -/
theorem deny_default_events_cex :
    ¬ ((resolveSelection
        { Pipelines := scenarioRegistry, BlackList := ["Pod"],
          WhiteList := [] }).2.1.map MeshsyncConfig.Pipelines =
      some [(LocalResourceKey,
             [{ Name := "Service", Events := ["ADD"] }])] ∧
      (resolveSelection
        { Pipelines := scenarioRegistry, BlackList := ["Service"],
          WhiteList := [] }).2.1.map MeshsyncConfig.Pipelines =
      some [(GlobalResourceKey,
             [{ Name := "Pod", Events := ["ADD", "DELETE"] }])]) := by
  decide

/-- C4 (amended): in the deny-list path every included pipeline's
effective event set equals the process-wide constant `DefaultEvents`
(one set applied uniformly, regardless of the registry definition's own
events); in the spec's scenario the output is exactly
{local: [Service with `DefaultEvents`]} with the global key absent. -/
theorem deny_default_events_uniform (reg : Registry) (bl : List String)
    (_hbl : bl ≠ []) (key : String) :
    (∀ cfg,
      (resolveSelection
        { Pipelines := reg, BlackList := bl, WhiteList := [] }).2.1 =
        some cfg →
      ∀ p ∈ scopePipelines cfg key, p.Events = DefaultEvents) ∧
    (resolveSelection
      { Pipelines := scenarioRegistry, BlackList := ["Pod"],
        WhiteList := [] }).2.1.map MeshsyncConfig.Pipelines =
      some [(LocalResourceKey,
             [{ Name := "Service", Events := DefaultEvents }])] := by
  refine ⟨?_, by decide⟩
  intro cfg hcfg p hp
  rcases resolved_scopePipelines reg bl [] cfg hcfg with ⟨hg, hl, hother⟩
  by_cases hkg : key = GlobalResourceKey
  · subst hkg
    rw [hg] at hp
    simp only [enabledFor, List.length_nil, ne_eq, not_true_eq_false,
      if_false] at hp
    rw [mem_denyResolved] at hp
    rcases hp with ⟨v, hv, hvn, hpv⟩
    rw [hpv]
  · by_cases hkl : key = LocalResourceKey
    · subst hkl
      rw [hl] at hp
      simp only [enabledFor, List.length_nil, ne_eq, not_true_eq_false,
        if_false] at hp
      rw [mem_denyResolved] at hp
      rcases hp with ⟨v, hv, hvn, hpv⟩
      rw [hpv]
    · rw [hother key hkg hkl] at hp
      simp at hp

theorem deny_default_events_uniform_witness :
    (["Pod"] : List String) ≠ [] ∧
    ((∀ cfg,
      (resolveSelection
        { Pipelines := scenarioRegistry, BlackList := ["Pod"],
          WhiteList := [] }).2.1 = some cfg →
      ∀ p ∈ scopePipelines cfg LocalResourceKey,
        p.Events = DefaultEvents) ∧
    (resolveSelection
      { Pipelines := scenarioRegistry, BlackList := ["Pod"],
        WhiteList := [] }).2.1.map MeshsyncConfig.Pipelines =
      some [(LocalResourceKey,
             [{ Name := "Service", Events := DefaultEvents }])]) :=
  ⟨by decide,
   deny_default_events_uniform scenarioRegistry ["Pod"] (by decide)
     LocalResourceKey⟩

/-- C5: for every valid selection, a scope key is present in the output
pipelines map exactly when at least one pipeline was enabled for that
scope; an empty scope is omitted entirely, never present with an empty
list, and an allow-list matching no registry definition yields an output
with no scope keys at all and no error. -/
theorem scope_key_presence (reg : Registry) (bl : List String)
    (wl : List ResourceConfig) (hvalid : bl = [] ↔ wl ≠ []) :
    ∃ cfg,
      (resolveSelection
        { Pipelines := reg, BlackList := bl, WhiteList := wl }).2 =
        (some cfg, none) ∧
      (∀ kv ∈ cfg.Pipelines, kv.2 ≠ []) ∧
      (∀ key, (∃ ps, (key, ps) ∈ cfg.Pipelines) ↔
        ((key = GlobalResourceKey ∨ key = LocalResourceKey) ∧
         enabledFor reg bl wl key ≠ [])) ∧
      (resolveSelection
        { Pipelines := scenarioRegistry, BlackList := [],
          WhiteList := [{ Resource := "Unknown", Events := ["ADD"] }] }).2 =
        (some { BlackList := [],
                WhiteList := [{ Resource := "Unknown", Events := ["ADD"] }],
                Pipelines := [] }, none) := by
  rw [resolved_config_some reg bl wl hvalid]
  refine ⟨_, rfl, ?_, ?_, by decide⟩
  · rintro ⟨key, ps⟩ hkv
    rw [mem_scopesMap] at hkv
    rcases hkv with ⟨hk, hps, hne⟩ | ⟨hk, hps, hne⟩ <;>
      · rw [hps]
        exact hne
  · intro key
    constructor
    · rintro ⟨ps, hps⟩
      rw [mem_scopesMap] at hps
      rcases hps with ⟨hk, hpse, hne⟩ | ⟨hk, hpse, hne⟩
      · refine ⟨Or.inl hk, ?_⟩
        rw [hk]
        exact hne
      · refine ⟨Or.inr hk, ?_⟩
        rw [hk]
        exact hne
    · rintro ⟨hor, hne⟩
      rcases hor with hk | hk
      · subst hk
        exact ⟨_, (mem_scopesMap _ _ _ _).mpr (Or.inl ⟨rfl, rfl, hne⟩)⟩
      · subst hk
        exact ⟨_, (mem_scopesMap _ _ _ _).mpr (Or.inr ⟨rfl, rfl, hne⟩)⟩

theorem scope_key_presence_witness :
    (([] : List String) = [] ↔
      ([{ Resource := "Unknown", Events := ["ADD"] }] :
        List ResourceConfig) ≠ []) ∧
    (∃ cfg,
      (resolveSelection
        { Pipelines := scenarioRegistry, BlackList := [],
          WhiteList := [{ Resource := "Unknown", Events := ["ADD"] }] }).2 =
        (some cfg, none) ∧
      (∀ kv ∈ cfg.Pipelines, kv.2 ≠ []) ∧
      (∀ key, (∃ ps, (key, ps) ∈ cfg.Pipelines) ↔
        ((key = GlobalResourceKey ∨ key = LocalResourceKey) ∧
         enabledFor scenarioRegistry []
           [{ Resource := "Unknown", Events := ["ADD"] }] key ≠ [])) ∧
      (resolveSelection
        { Pipelines := scenarioRegistry, BlackList := [],
          WhiteList := [{ Resource := "Unknown", Events := ["ADD"] }] }).2 =
        (some { BlackList := [],
                WhiteList := [{ Resource := "Unknown", Events := ["ADD"] }],
                Pipelines := [] }, none)) :=
  ⟨by decide,
   scope_key_presence scenarioRegistry []
     [{ Resource := "Unknown", Events := ["ADD"] }] (by decide)⟩

/-- C6: output order within each scope always follows registry order
(the output names form a sublist of the registry's names in order), and
permuting the allow-list in a first-match-preserving way, or permuting
the deny-list, does not change the produced pipelines map at all. -/
theorem registry_order_determinism (reg : Registry) (bl bl' : List String)
    (wl wl' : List ResourceConfig)
    (hvalid : bl = [] ↔ wl ≠ [])
    (hpw : wl.Perm wl')
    (hfind : ∀ n, wl.find? (fun c => c.Resource == n) =
                  wl'.find? (fun c => c.Resource == n))
    (hpb : bl.Perm bl') :
    (∀ key cfg,
      (resolveSelection
        { Pipelines := reg, BlackList := bl, WhiteList := wl }).2.1 =
        some cfg →
      ((scopePipelines cfg key).map PipelineConfig.Name).Sublist
        ((lookupScope reg key).map PipelineConfig.Name)) ∧
    ((resolveSelection
        { Pipelines := reg, BlackList := [], WhiteList := wl }).2.1.map
        MeshsyncConfig.Pipelines =
      (resolveSelection
        { Pipelines := reg, BlackList := [], WhiteList := wl' }).2.1.map
        MeshsyncConfig.Pipelines) ∧
    ((resolveSelection
        { Pipelines := reg, BlackList := bl, WhiteList := [] }).2.1.map
        MeshsyncConfig.Pipelines =
      (resolveSelection
        { Pipelines := reg, BlackList := bl', WhiteList := [] }).2.1.map
        MeshsyncConfig.Pipelines) := by
  refine ⟨?_, ?_, ?_⟩
  · intro key cfg hcfg
    rcases resolved_scopePipelines reg bl wl cfg hcfg with ⟨hg, hl, ho⟩
    by_cases hkg : key = GlobalResourceKey
    · subst hkg
      rw [hg]
      unfold enabledFor
      split_ifs
      · exact allowResolved_names_sublist _ _
      · exact denyResolved_names_sublist _ _
    · by_cases hkl : key = LocalResourceKey
      · subst hkl
        rw [hl]
        unfold enabledFor
        split_ifs
        · exact allowResolved_names_sublist _ _
        · exact denyResolved_names_sublist _ _
      · rw [ho key hkg hkl]
        simp
  · rcases eq_or_ne wl [] with hw | hw
    · have hw' : wl' = [] := by
        subst hw
        exact hpw.symm.eq_nil
      subst hw hw'
      rfl
    · have hw' : wl' ≠ [] := by
        intro he
        exact hw (List.Perm.eq_nil (he ▸ hpw))
      rw [resolveSelection_allow reg wl hw, resolveSelection_allow reg wl' hw']
      rw [allowResolved_congr wl wl' hfind (lookupScope reg GlobalResourceKey),
          allowResolved_congr wl wl' hfind (lookupScope reg LocalResourceKey)]
      rfl
  · rcases eq_or_ne bl [] with hb | hb
    · have hb' : bl' = [] := by
        subst hb
        exact hpb.symm.eq_nil
      subst hb hb'
      rfl
    · have hb' : bl' ≠ [] := by
        intro he
        exact hb (List.Perm.eq_nil (he ▸ hpb))
      rw [resolveSelection_deny reg bl hb, resolveSelection_deny reg bl' hb']
      rw [denyResolved_congr bl bl' (fun n => hpb.mem_iff)
            (lookupScope reg GlobalResourceKey),
          denyResolved_congr bl bl' (fun n => hpb.mem_iff)
            (lookupScope reg LocalResourceKey)]
      rfl

theorem registry_order_determinism_witness :
    ((["Pod", "Deployment"] : List String) = [] ↔
      ([] : List ResourceConfig) ≠ []) ∧
    ([] : List ResourceConfig).Perm [] ∧
    (∀ n, List.find? (fun c : ResourceConfig => c.Resource == n) [] =
          List.find? (fun c : ResourceConfig => c.Resource == n) []) ∧
    (["Pod", "Deployment"] : List String).Perm ["Deployment", "Pod"] ∧
    ((∀ key cfg,
      (resolveSelection
        { Pipelines := scenarioRegistry, BlackList := ["Pod", "Deployment"],
          WhiteList := [] }).2.1 = some cfg →
      ((scopePipelines cfg key).map PipelineConfig.Name).Sublist
        ((lookupScope scenarioRegistry key).map PipelineConfig.Name)) ∧
    ((resolveSelection
        { Pipelines := scenarioRegistry, BlackList := [],
          WhiteList := [] }).2.1.map MeshsyncConfig.Pipelines =
      (resolveSelection
        { Pipelines := scenarioRegistry, BlackList := [],
          WhiteList := [] }).2.1.map MeshsyncConfig.Pipelines) ∧
    ((resolveSelection
        { Pipelines := scenarioRegistry, BlackList := ["Pod", "Deployment"],
          WhiteList := [] }).2.1.map MeshsyncConfig.Pipelines =
      (resolveSelection
        { Pipelines := scenarioRegistry, BlackList := ["Deployment", "Pod"],
          WhiteList := [] }).2.1.map MeshsyncConfig.Pipelines)) :=
  ⟨by decide, List.Perm.refl [], fun n => rfl, by decide,
   registry_order_determinism scenarioRegistry ["Pod", "Deployment"]
     ["Deployment", "Pod"] [] [] (by decide) (List.Perm.refl [])
     (fun n => rfl) (by decide)⟩

/-- C8: unknown resource names never cause a failure: any valid selection
resolves without error, the only errors the resolver ever returns are
MissingSelection and ConflictingSelection, and every pipeline in the
output carries the name of some registry definition of its scope (an
unknown name simply never appears, i.e. the resource is not enabled). -/
theorem error_taxonomy_leniency (reg : Registry) (bl : List String)
    (wl : List ResourceConfig) :
    ((resolveSelection
        { Pipelines := reg, BlackList := bl, WhiteList := wl }).2.2 = none ∨
     (resolveSelection
        { Pipelines := reg, BlackList := bl, WhiteList := wl }).2.2 =
        some ConfigError.missingSelection ∨
     (resolveSelection
        { Pipelines := reg, BlackList := bl, WhiteList := wl }).2.2 =
        some ConfigError.conflictingSelection) ∧
    ((bl = [] ↔ wl ≠ []) →
      (resolveSelection
        { Pipelines := reg, BlackList := bl, WhiteList := wl }).2.2 = none) ∧
    (∀ key cfg,
      (resolveSelection
        { Pipelines := reg, BlackList := bl, WhiteList := wl }).2.1 =
        some cfg →
      ∀ p ∈ scopePipelines cfg key,
        p.Name ∈ (lookupScope reg key).map PipelineConfig.Name) := by
  refine ⟨?_, ?_, ?_⟩
  · rcases eq_or_ne wl [] with hw | hw
    · rcases eq_or_ne bl [] with hb | hb
      · subst hw hb
        rw [resolveSelection_missing]
        right
        left
        rfl
      · subst hw
        rw [resolveSelection_deny reg bl hb]
        left
        rfl
    · rcases eq_or_ne bl [] with hb | hb
      · subst hb
        rw [resolveSelection_allow reg wl hw]
        left
        rfl
      · rw [resolveSelection_conflict reg bl wl hb hw]
        right
        right
        rfl
  · intro hvalid
    rw [resolved_config_some reg bl wl hvalid]
  · intro key cfg hcfg p hp
    rcases resolved_scopePipelines reg bl wl cfg hcfg with ⟨hg, hl, ho⟩
    by_cases hkg : key = GlobalResourceKey
    · subst hkg
      rw [hg] at hp
      unfold enabledFor at hp
      split_ifs at hp
      · rw [mem_allowResolved] at hp
        rcases hp with ⟨v, hv, c, hfc, hpv⟩
        rw [hpv]
        simpa using List.mem_map_of_mem PipelineConfig.Name hv
      · rw [mem_denyResolved] at hp
        rcases hp with ⟨v, hv, hvn, hpv⟩
        rw [hpv]
        simpa using List.mem_map_of_mem PipelineConfig.Name hv
    · by_cases hkl : key = LocalResourceKey
      · subst hkl
        rw [hl] at hp
        unfold enabledFor at hp
        split_ifs at hp
        · rw [mem_allowResolved] at hp
          rcases hp with ⟨v, hv, c, hfc, hpv⟩
          rw [hpv]
          simpa using List.mem_map_of_mem PipelineConfig.Name hv
        · rw [mem_denyResolved] at hp
          rcases hp with ⟨v, hv, hvn, hpv⟩
          rw [hpv]
          simpa using List.mem_map_of_mem PipelineConfig.Name hv
      · rw [ho key hkg hkl] at hp
        simp at hp

theorem error_taxonomy_leniency_witness :
    ((resolveSelection
        { Pipelines := scenarioRegistry, BlackList := ["Unknown"],
          WhiteList := [] }).2.2 = none ∨
     (resolveSelection
        { Pipelines := scenarioRegistry, BlackList := ["Unknown"],
          WhiteList := [] }).2.2 = some ConfigError.missingSelection ∨
     (resolveSelection
        { Pipelines := scenarioRegistry, BlackList := ["Unknown"],
          WhiteList := [] }).2.2 = some ConfigError.conflictingSelection) ∧
    (((["Unknown"] : List String) = [] ↔
        ([] : List ResourceConfig) ≠ []) →
      (resolveSelection
        { Pipelines := scenarioRegistry, BlackList := ["Unknown"],
          WhiteList := [] }).2.2 = none) ∧
    (∀ key cfg,
      (resolveSelection
        { Pipelines := scenarioRegistry, BlackList := ["Unknown"],
          WhiteList := [] }).2.1 = some cfg →
      ∀ p ∈ scopePipelines cfg key,
        p.Name ∈ (lookupScope scenarioRegistry key).map PipelineConfig.Name) :=
  error_taxonomy_leniency scenarioRegistry ["Unknown"] []
